import Mathlib

/-!
Verification of the self-evolving capability runtime (Rust) against its
natural-language specification.

The development below is a shallow embedding of the parts of the source that
the checked claims concern:

* `crates/core/src/types.rs`               — `CapabilityStatus`, `CapabilityRecord`
* `crates/core/src/capability_index.rs`    — `cosine_similarity`, `CapabilityIndex`
* `crates/core/src/capability_registry.rs` — `load_capabilities`
* `crates/core/src/capability_runner.rs`   — the `file_read` host function
* `crates/host/src/store.rs`               — `CapabilityStore` (`load`, `reload`,
  `capabilities_summary_for_task`, `get_capability`, `mark_deprecated`)
* `crates/host/src/agent.rs`               — orchestrator turn loop and tool handlers
* `crates/host/src/mutation_agent/{mod,tools}.rs` — synthesis gate state machine

Modelling conventions: `f32` is modelled as `ℝ`; the host-ABI pointers and
lengths are the guest's 32-bit values, modelled as `ℕ` bit patterns that are
sign-extended to 64-bit `usize` exactly as `as usize` does, with `usize`
addition wrapping modulo `2^64` and the out-of-order slice panic modelled
explicitly; fallible Rust functions returning
`anyhow::Result` are modelled with `Except String`; external effects (the
embedding provider, the LLM client, the filesystem, the WASM runner and the
cargo subprocesses) are modelled as explicit oracle parameters, so a theorem
quantifying over the oracle covers every behaviour of the environment.
-/

/-- `CapabilityStatus` from `crates/core/src/types.rs`. -/
inductive CapabilityStatus where
  | Active
  | Legacy
  | Deprecated
deriving DecidableEq, Repr

/-- `CapabilityRecord` from `crates/core/src/types.rs`. Embedding vectors
(`Vec<f32>`) are modelled as `List ℝ`. -/
structure CapabilityRecord where
  id : String
  summary : String
  embedding : Option (List ℝ)
  binary : Option String
  status : CapabilityStatus
  replaced_by : Option String

/-- `CapabilityRecord::is_active` from `crates/core/src/types.rs`. -/
def CapabilityRecord.is_active (c : CapabilityRecord) : Bool :=
  c.status = CapabilityStatus.Active

/-- `cosine_similarity` from `crates/core/src/capability_index.rs`.
The source accumulates `dot`, `na`, `nb` in a single loop over
`a.iter().zip(b.iter())`; here the three accumulators are written as three
sums over the same zipped list. The zero-norm guard and the final division
are exactly the source's. -/
noncomputable def cosine_similarity (a b : List ℝ) : ℝ :=
  let dot := ((a.zip b).map (fun p => p.1 * p.2)).sum
  let na := ((a.zip b).map (fun p => p.1 * p.1)).sum
  let nb := ((a.zip b).map (fun p => p.2 * p.2)).sum
  if na = 0 ∨ nb = 0 then 0 else dot / (Real.sqrt na * Real.sqrt nb)

/-- The `Embedder` trait (`crates/core/src/embedding.rs`): one method mapping
a string to a vector, or an error. -/
def Embedder : Type := String → Except String (List ℝ)

/-- `CapabilityIndex` from `crates/core/src/capability_index.rs`. The Rust
`HashMap<String, Vec<f32>>` is modelled as an association list (iteration
order of the map is unspecified in the source; none of the checked claims
depends on it). -/
structure CapabilityIndex where
  dim : ℕ
  embeddings : List (String × List ℝ)

/-- `CapabilityIndex::nearest_from_embedding`: score every indexed vector
with `cosine_similarity`, sort descending by score (the source sorts with
`b.partial_cmp(a)`), and truncate to `k`. -/
noncomputable def CapabilityIndex.nearest_from_embedding
    (idx : CapabilityIndex) (query_emb : List ℝ) (k : ℕ) : List (String × ℝ) :=
  let scored := idx.embeddings.map (fun p => (p.1, cosine_similarity query_emb p.2))
  (scored.mergeSort (fun x y => decide (y.2 ≤ x.2))).take k

/-- `CapabilityIndex::nearest_for_task`: embed the task, check the query
dimension against the index dimension, then delegate. -/
noncomputable def CapabilityIndex.nearest_for_task
    (idx : CapabilityIndex) (task_description : String) (embedder : Embedder)
    (k : ℕ) : Except String (List (String × ℝ)) :=
  match embedder task_description with
  | .error e => .error e
  | .ok query_emb =>
    if idx.dim ≠ query_emb.length then
      .error "query embedding dimension does not match index dimension"
    else
      .ok (idx.nearest_from_embedding query_emb k)

/-- One pass of `CapabilityIndex::build`'s loop over the capabilities:
embed any capability whose `embedding` is `None` (caching the result on the
record), enforce a uniform dimension, and collect `(id, embedding)` pairs. -/
def buildIndexGo (embedder : Embedder) :
    Option ℕ → List CapabilityRecord →
    Except String (List CapabilityRecord × Option ℕ × List (String × List ℝ))
  | dim, [] => .ok ([], dim, [])
  | dim, c :: rest =>
    match (match c.embedding with
           | some e => Except.ok e
           | none => embedder c.summary : Except String (List ℝ)) with
    | .error e => .error e
    | .ok emb =>
      match dim with
      | some d =>
        if d ≠ emb.length then
          .error "inconsistent embedding dimensions"
        else
          match buildIndexGo embedder (some d) rest with
          | .error e => .error e
          | .ok (cs, dm, es) =>
            .ok ({ c with embedding := some emb } :: cs, dm, (c.id, emb) :: es)
      | none =>
        match buildIndexGo embedder (some emb.length) rest with
        | .error e => .error e
        | .ok (cs, dm, es) =>
          .ok ({ c with embedding := some emb } :: cs, dm, (c.id, emb) :: es)

/-- `CapabilityIndex::build` from `crates/core/src/capability_index.rs`.
The Rust function mutates the capability slice in place and returns the
index; here the updated records are returned alongside the index. -/
def CapabilityIndex.build (capabilities : List CapabilityRecord)
    (embedder : Embedder) : Except String (List CapabilityRecord × CapabilityIndex) :=
  match buildIndexGo embedder none capabilities with
  | .error e => .error e
  | .ok (cs, dm, es) => .ok (cs, ⟨dm.getD 0, es⟩)

/-- On-disk `meta.json` content as parsed by the registry
(`CapabilityMeta` in `crates/core/src/capability_registry.rs`). -/
structure CapabilityMeta where
  id : String
  summary : String
  embedding : Option (List ℝ)
  binary : Option String
  status : CapabilityStatus
  replaced_by : Option String

/-- `CapabilityMeta` → `CapabilityRecord`, as in
`CapabilityRegistry::load_capabilities`. -/
def CapabilityMeta.toRecord (m : CapabilityMeta) : CapabilityRecord :=
  { id := m.id, summary := m.summary, embedding := m.embedding,
    binary := m.binary, status := m.status, replaced_by := m.replaced_by }

/-- One immediate child of the `crates/` directory, as `load_capabilities`
sees it: not a directory (skipped), a directory without `meta.json`
(skipped), a `meta.json` that fails to read or to parse (fatal), or a
parsed `meta.json`. -/
inductive CrateEntry where
  | notDir
  | noMeta
  | metaReadErr
  | metaParseErr
  | meta (m : CapabilityMeta)

/-- The state of the registry root's `crates/` subdirectory. -/
inductive CratesDir where
  | missing
  | unreadable
  | entries (es : List CrateEntry)

/-- The entry loop of `CapabilityRegistry::load_capabilities`: skip
non-directories and directories without `meta.json`; abort on a read or
parse failure; otherwise materialize the record. -/
def loadEntries : List CrateEntry → Except String (List CapabilityRecord)
  | [] => .ok []
  | .notDir :: rest => loadEntries rest
  | .noMeta :: rest => loadEntries rest
  | .metaReadErr :: _ => .error "failed to read meta.json"
  | .metaParseErr :: _ => .error "failed to parse meta.json"
  | .meta m :: rest =>
    match loadEntries rest with
    | .error e => .error e
    | .ok rs => .ok (m.toRecord :: rs)

/-- `CapabilityRegistry::load_capabilities` from
`crates/core/src/capability_registry.rs`: a missing `crates/` directory is a
successful empty load; an unreadable one is an error; otherwise walk the
entries. -/
def load_capabilities : CratesDir → Except String (List CapabilityRecord)
  | .missing => .ok []
  | .unreadable => .error "failed to read capabilities directory"
  | .entries es => loadEntries es

/-- `CapabilityStore` from `crates/host/src/store.rs`. -/
structure CapabilityStore where
  capabilities : List CapabilityRecord
  index : CapabilityIndex

/-- `CapabilityStore::load`: load from disk, reject an empty catalog, build
the index. The on-disk root is represented by its `crates/` directory
state. -/
def CapabilityStore.load (d : CratesDir) (embedder : Embedder) :
    Except String CapabilityStore :=
  match load_capabilities d with
  | .error e => .error e
  | .ok capabilities =>
    if capabilities.isEmpty then
      .error "No capabilities found - add some meta.json files!"
    else
      match CapabilityIndex.build capabilities embedder with
      | .error e => .error e
      | .ok (cs, index) => .ok ⟨cs, index⟩

/-- `CapabilityStore::reload`: same disk walk, emptiness check and index
build as `load`; on success the store's two fields are replaced. -/
def CapabilityStore.reload (_store : CapabilityStore) (d : CratesDir)
    (embedder : Embedder) : Except String CapabilityStore :=
  match load_capabilities d with
  | .error e => .error e
  | .ok capabilities =>
    if capabilities.isEmpty then
      .error "No capabilities found - add some meta.json files!"
    else
      match CapabilityIndex.build capabilities embedder with
      | .error e => .error e
      | .ok (cs, index) => .ok ⟨cs, index⟩

/-- `CapabilityStore::get_capability`: lookup by id alone
(`self.capabilities.iter().find(|c| c.id == id)`); no status check. -/
def CapabilityStore.get_capability (store : CapabilityStore) (id : String) :
    Option CapabilityRecord :=
  store.capabilities.find? (fun c => c.id == id)

/-- The status filter of `CapabilityStore::capabilities_summary_for_task`:
keep a scored id only when the first record with that id exists and
`is_active`. -/
def activeFilterPred (capabilities : List CapabilityRecord)
    (p : String × ℝ) : Bool :=
  match capabilities.find? (fun c => c.id == p.1) with
  | some c => c.is_active
  | none => false

/-- `CapabilityStore::capabilities_summary_for_task` from
`crates/host/src/store.rs`: ask the index for the `k` nearest ids, filter
to active capabilities, and render the summary lines. -/
noncomputable def CapabilityStore.capabilities_summary_for_task
    (store : CapabilityStore) (task : String) (embedder : Embedder) (k : ℕ) :
    Except String (String × List (String × ℝ)) :=
  match store.index.nearest_for_task task embedder k with
  | .error e => .error e
  | .ok nearest =>
    let active_nearest := nearest.filter (activeFilterPred store.capabilities)
    let lines := "You have access to the following capabilities:" ::
      active_nearest.filterMap (fun p =>
        (store.capabilities.find? (fun c => c.id == p.1)).map
          (fun c => s!"- id: {c.id}\n  summary: {c.summary}"))
    .ok (String.intercalate "\n" lines, active_nearest)

/-- The parsed `meta.json` document as `mark_deprecated` manipulates it: a
generic JSON object of which only the two keys the function writes are
tracked (the remaining keys are carried through unchanged by the source's
read-modify-write). -/
structure MetaDoc where
  status : Option String
  deprecated_reason : Option String
deriving DecidableEq, Repr

/-- The on-disk state of one capability's `meta.json` as seen by
`CapabilityStore::mark_deprecated`: missing, unreadable, unparsable, or a
parsed document. -/
inductive MetaFileState where
  | absent
  | readErr
  | parseErr
  | doc (d : MetaDoc)
deriving DecidableEq, Repr

/-- The mutable state `mark_deprecated` acts on: the in-memory capability
list plus, per capability id, the on-disk `meta.json` state, whether a
write to that file fails, and — since the source uses plain `fs::write`
(create/truncate then `write_all`), not write-temp-then-rename — the file
state a failed write leaves behind (unchanged if the create itself failed,
truncated or partially written otherwise; the oracle ranges over all of
these). -/
structure CatalogState where
  caps : List CapabilityRecord
  disk : String → MetaFileState
  writeFails : String → Bool
  failedWriteResult : String → MetaFileState

/-- `self.capabilities.iter_mut().find(|c| c.id == capability_id)` followed
by `cap.status = Deprecated`: set the status of the first record with the
given id. -/
def deprecateFirst (cid : String) : List CapabilityRecord → List CapabilityRecord
  | [] => []
  | c :: rest =>
    if c.id == cid then { c with status := CapabilityStatus.Deprecated } :: rest
    else c :: deprecateFirst cid rest

/-- `CapabilityStore::mark_deprecated` from `crates/host/src/store.rs`,
returned as (state after the call, result). The source mutates the
in-memory record first, then checks that `meta.json` exists, reads it,
parses it, sets `status` and `deprecated_reason`, and writes it back; every
`?`/bail on that path returns with the in-memory mutation already done. -/
def mark_deprecated (st : CatalogState) (capability_id reason : String) :
    CatalogState × Except String Unit :=
  match st.caps.find? (fun c => c.id == capability_id) with
  | none => (st, .error s!"Capability {capability_id} not found")
  | some _ =>
    let st1 : CatalogState := { st with caps := deprecateFirst capability_id st.caps }
    match st.disk capability_id with
    | .absent => (st1, .error s!"meta.json not found for capability {capability_id}")
    | .readErr => (st1, .error "failed to read meta.json")
    | .parseErr => (st1, .error "failed to parse meta.json")
    | .doc d =>
      if st.writeFails capability_id then
        ({ st1 with
            disk := fun p =>
              if p == capability_id then st.failedWriteResult capability_id
              else st.disk p },
         .error "failed to write meta.json")
      else
        ({ st1 with
            disk := fun p =>
              if p == capability_id then
                .doc { d with status := some "deprecated",
                              deprecated_reason := some reason }
              else st.disk p },
         .ok ())

/-- The result of `std::fs::read_to_string` as the `file_read` host
function distinguishes it: content bytes, `NotFound`, `PermissionDenied`,
or any other error kind. -/
inductive FsReadResult where
  | ok (content : List ℕ)
  | notFound
  | permissionDenied
  | otherErr
deriving DecidableEq

/-- The host-side environment of the `file_read` host function: UTF-8
decoding of the path bytes (`String::from_utf8`) and the host filesystem
read. Both are external to the repository and are modelled as oracles. -/
structure HostEnv where
  utf8Decode : List ℕ → Option String
  fsRead : String → FsReadResult

/-- `data[start..end].copy_from_slice(content)`: overwrite `content.length`
bytes of `data` starting at `start`. -/
def writeBytes (data : List ℕ) (start : ℕ) (content : List ℕ) : List ℕ :=
  data.take start ++ content ++ data.drop (start + content.length)

/-- `x as usize` for an `x: i32` held as its 32-bit pattern: values with
the sign bit set are sign-extended into the top 32 bits of the 64-bit
`usize`. -/
def signExtend32 (x : ℕ) : ℕ :=
  if x < 2 ^ 31 then x else x + (2 ^ 64 - 2 ^ 32)

/-- 64-bit `usize` addition result (release-mode wrapping). -/
def wrap64 (n : ℕ) : ℕ := n % 2 ^ 64

/-- `n as i32` for `n: usize`: truncate to the low 32 bits, reinterpreted
as a signed value. -/
def toI32 (n : ℕ) : Int :=
  if n % 2 ^ 32 < 2 ^ 31 then ((n % 2 ^ 32 : ℕ) : Int)
  else ((n % 2 ^ 32 : ℕ) : Int) - 2 ^ 32

/-- Observable outcome of one host-function call: a returned `i32` code
together with the guest memory after the call, or a host-side panic (a
slice `data[start..end]` with `start > end`, reachable when the wrapping
`usize` addition computing `end` wraps past `2^64`; under debug-profile
overflow checks the same inputs panic at the addition instead — either
way the call panics rather than returning a code). -/
inductive HostCallOutcome where
  | ret (code : Int) (mem : Option (List ℕ))
  | panic
deriving DecidableEq, Repr

/-- The `file_read` host function from
`CapabilityRunner::add_host_functions` in
`crates/core/src/capability_runner.rs`. `mem` is the guest's exported
linear memory (`none` when the module exports no memory named `memory`);
`path_ptr`, `path_len`, `result_ptr` are the guest's `i32` arguments as
32-bit patterns. The source computes `start = ptr as usize`,
`end = start + len as usize`, checks `end > data.len()` (−2), and then
slices `data[start..end]` — which panics when the addition wrapped so that
`end < start`; the success path returns `content.len() as i32`. -/
def file_read (env : HostEnv) (mem : Option (List ℕ))
    (path_ptr path_len result_ptr : ℕ) : HostCallOutcome :=
  match mem with
  | none => .ret (-1) none
  | some data =>
    let pstart := signExtend32 path_ptr
    let pstop := wrap64 (pstart + signExtend32 path_len)
    if pstop > data.length then .ret (-2) (some data)
    else if pstart > pstop then .panic
    else
      match env.utf8Decode ((data.drop pstart).take (pstop - pstart)) with
      | none => .ret (-3) (some data)
      | some path =>
        match env.fsRead path with
        | .notFound => .ret (-4) (some data)
        | .permissionDenied => .ret (-5) (some data)
        | .otherErr => .ret (-6) (some data)
        | .ok content =>
          let rstart := signExtend32 result_ptr
          let rstop := wrap64 (rstart + content.length)
          if rstop > data.length then .ret (-7) (some data)
          else if rstart > rstop then .panic
          else .ret (toI32 content.length) (some (writeBytes data rstart content))

/-- `Agent::max_steps`, set in `Agent::new` (`crates/host/src/agent.rs`). -/
def agentMaxSteps : ℕ := 12

/-- What one iteration of `Agent::run_task` observes, after the
`client.chat` call and (when the response carried tool calls) after running
the tools of that turn in order:

* `chatErr` — the chat call failed or the response had no choices
  (both abort `run_task` with an error);
* `toolCalls r` — the message's `tool_calls` field was `Some` (possibly an
  empty vector); `r` is the outcome of executing the calls in order:
  `.ok` with the tool-result strings appended to the conversation, or
  `.error` when a handler returned `Err` (aborting `run_task`);
* `message c` — the message carried no tool calls; `c` is its `content`.

`run_task`'s control flow depends only on this per-turn observation, so a
function from turn index to `TurnOutcome` covers every behaviour of the
`AiClient` and of the tool handlers. -/
inductive TurnOutcome where
  | chatErr (e : String)
  | toolCalls (r : Except String (List String))
  | message (content : Option String)

/-- The `for step in 0..self.max_steps` loop of `Agent::run_task`: `fuel`
is the number of remaining iterations, `i` the current step index. -/
def runTaskLoop (script : ℕ → TurnOutcome) : ℕ → ℕ → Except String String
  | 0, _ => .error "Agentic loop reached max_steps without a final answer"
  | fuel + 1, i =>
    match script i with
    | .chatErr e => .error e
    | .toolCalls (.error e) => .error e
    | .toolCalls (.ok _) => runTaskLoop script fuel (i + 1)
    | .message c => .ok (c.getD "<no content>")

/-- `Agent::run_task` from `crates/host/src/agent.rs`, abstracted over the
per-turn observations. -/
def run_task (script : ℕ → TurnOutcome) : Except String String :=
  runTaskLoop script agentMaxSteps 0

/-- The fields `handle_run_capability` extracts from its parsed JSON
arguments: `args.get("capability_id").and_then(as_str)` and
`args.get("input_json").and_then(as_str)`. -/
structure RunArgs where
  capability_id : Option String
  input_json : Option String

/-- Outcome of `CapabilityRunner::run_capability` for one invocation. -/
inductive RunOutcome where
  | ok (output : String)
  | fail (e : String)

/-- Result of one `handle_run_capability` call: the string (or error)
returned to the turn loop, the failure-count map after the call, the
`mark_deprecated` invocation made during the call (id and reason), if any,
and the capability that was handed to the runner, if any. -/
structure RunCallResult where
  result : Except String String
  counts : String → Option ℕ
  deprecatedCalled : Option (String × String)
  executed : Option CapabilityRecord

/-- `Agent::handle_run_capability` from `crates/host/src/agent.rs`.
`counts` models `self.failure_counts : HashMap<String, usize>` as a partial
map (`none` = no entry); `runner` is the runner oracle; `args` is the
parsed argument object (`.error` = the arguments string was not valid
JSON). On failure the count is bumped through `entry(..).or_insert(0)`; at
`*count >= 2` the store's `mark_deprecated` is invoked (its own error is
only logged); on success the entry is removed. -/
def handle_run_capability (caps : List CapabilityRecord)
    (counts : String → Option ℕ) (runner : CapabilityRecord → String → RunOutcome)
    (args : Except String RunArgs) : RunCallResult :=
  match args with
  | .error e => ⟨.error e, counts, none, none⟩
  | .ok a =>
    match a.capability_id with
    | none => ⟨.error "run_capability.arguments missing capability_id", counts, none, none⟩
    | some cid =>
      match a.input_json with
      | none => ⟨.error "run_capability.arguments missing input_json", counts, none, none⟩
      | some input =>
        match caps.find? (fun c => c.id == cid) with
        | none => ⟨.error s!"Requested capability_id {cid} not found", counts, none, none⟩
        | some cap =>
          match runner cap input with
          | .ok output =>
            ⟨.ok output, fun x => if x == cid then none else counts x, none, some cap⟩
          | .fail e =>
            let count := (counts cid).getD 0 + 1
            ⟨.ok s!"ERROR: Capability {cid} failed: {e}. Failures: {count}/2 before deprecation.",
             fun x => if x == cid then some count else counts x,
             if count ≥ 2 then some (cid, s!"Failed {count} times. Last error: {e}") else none,
             some cap⟩

/-- The fields `handle_mutate_capability` extracts from its parsed JSON
arguments. -/
structure MutArgs where
  task_description : Option String
  parent_capability_id : Option String

/-- How `Agent::handle_mutate_capability` dispatches on its arguments:
either one of the three argument errors, or it proceeds to synthesis
(spawning the `MutationAgent`) with the two extracted strings. -/
inductive MutateDispatch where
  | parseErr (e : String)
  | missingTaskDescription
  | missingParentCapabilityId
  | synthesize (task_description parent_capability_id : String)
deriving DecidableEq, Repr

/-- The argument-validation prefix of `Agent::handle_mutate_capability`
from `crates/host/src/agent.rs`: both `task_description` and
`parent_capability_id` are extracted with a `.context(...)?` that fails the
call when the key is absent (or not a string). -/
def handle_mutate_capability (args : Except String MutArgs) : MutateDispatch :=
  match args with
  | .error e => .parseErr e
  | .ok a =>
    match a.task_description with
    | none => .missingTaskDescription
    | some td =>
      match a.parent_capability_id with
      | none => .missingParentCapabilityId
      | some pid => .synthesize td pid

/-- The `required` list of the `mutate_capability` tool schema built by
`Agent::tool_definitions` in `crates/host/src/agent.rs`. -/
def mutateToolRequired : List String := ["task_description", "parent_capability_id"]

/-- The mutable state of `ToolHandler`
(`crates/host/src/mutation_agent/tools.rs`). -/
structure ToolHandlerState where
  build_succeeded : Bool
  test_passed : Bool
  code_written : Bool
  consecutive_build_failures : ℕ
  consecutive_test_failures : ℕ
  last_test_error : Option String

/-- `ToolHandler::new` / `ToolHandler::reset`: all flags false, counters
zero, no recorded test error. -/
def ToolHandlerState.init : ToolHandlerState :=
  ⟨false, false, false, 0, 0, none⟩

/-- One tool call dispatched through `ToolHandler::handle`, carrying the
outcomes of the external effects the handler consults:

* `writeFile argsOk` — `handle_write_file`; the three flags are updated
  exactly when the arguments parse (the source sets them before touching
  the filesystem, so the outcome of `fs::write` is irrelevant to them);
* `build cmdOk` — `handle_build`; `cmdOk` is whether
  `cargo build --release --target wasm32-wasip1` exited successfully
  (a failure to even spawn cargo aborts the whole mutation and produces no
  further events);
* `test argsOk envOk r` — `handle_test`; `envOk` is whether the `.wasm`
  file exists and the `CapabilityRunner` could be constructed, and `r` is
  the runner outcome (`none` = success, `some e` = the error string);
* `passive` — `web_search`, `http_get`, `read_file`, `cargo_run`,
  `rustc_explain`, `handle_complete` and unknown tool names, all of which
  take `&self` or touch none of the tracked fields. -/
inductive MutTool where
  | writeFile (argsOk : Bool)
  | build (cmdOk : Bool)
  | test (argsOk : Bool) (envOk : Bool) (r : Option String)
  | passive

/-- The state transition of `ToolHandler::handle` for one tool call,
translated clause by clause from `handle_write_file`, `handle_build` and
`handle_test`. -/
def toolStep (s : ToolHandlerState) : MutTool → ToolHandlerState
  | .writeFile argsOk =>
    if argsOk then
      { s with build_succeeded := false, test_passed := false, code_written := true }
    else s
  | .build cmdOk =>
    if ¬s.code_written then s
    else if cmdOk then
      { s with build_succeeded := true, consecutive_build_failures := 0 }
    else
      { s with build_succeeded := false,
               consecutive_build_failures := s.consecutive_build_failures + 1 }
  | .test argsOk envOk r =>
    if ¬argsOk then s
    else if ¬s.build_succeeded then s
    else if ¬envOk then s
    else
      match r with
      | none =>
        { s with test_passed := true, consecutive_test_failures := 0,
                 last_test_error := none }
      | some e =>
        { s with test_passed := false,
                 consecutive_test_failures := s.consecutive_test_failures + 1,
                 last_test_error := some e }
  | .passive => s

/-- The `ToolHandler` state reached after a sequence of tool calls starting
from `reset()` (as `MutationAgent::mutate_capability` does before its agent
loop). -/
def runTools (evs : List MutTool) : ToolHandlerState :=
  evs.foldl toolStep ToolHandlerState.init

/-- `CompletionArgs` from `crates/host/src/mutation_agent/tools.rs`. -/
structure CompletionArgs where
  summary : String
  mark_parent_legacy : Bool

/-- Outcome of `MutationAgent::try_complete`
(`crates/host/src/mutation_agent/mod.rs`): invalid arguments (error pushed,
loop continues), a gate error listing the missing build / test steps
(error pushed, loop continues), or promotion — `update_meta_json` is called
on the new capability and a `MutationResult` with the model's summary is
returned. -/
inductive CompleteOutcome where
  | invalidArgs
  | gateError (missingBuild missingTest : Bool)
  | promoted (summary : String)
deriving DecidableEq, Repr

/-- `MutationAgent::try_complete`: parse the arguments, then admit
completion iff `build_succeeded` and `test_passed` both hold (the source
checks exactly these two flags). `args = none` models a parse failure. -/
def try_complete (s : ToolHandlerState) (args : Option CompletionArgs) :
    CompleteOutcome :=
  match args with
  | none => .invalidArgs
  | some a =>
    if !s.build_succeeded || !s.test_passed then
      .gateError (!s.build_succeeded) (!s.test_passed)
    else
      .promoted a.summary


/-- The inductive invariant of the gate state machine: `build_succeeded`
can only be true after `write_file` set `code_written`, and likewise
`test_passed` (a passed test requires a prior successful build, which
requires written code; a later failed build clears `build_succeeded` but
never `code_written`). -/
def GateInv (s : ToolHandlerState) : Prop :=
  (s.build_succeeded = true → s.code_written = true) ∧
  (s.test_passed = true → s.code_written = true)

/-- `GateInv` is preserved by every tool call. -/
theorem gateInv_toolStep (s : ToolHandlerState) (e : MutTool)
    (h : GateInv s) : GateInv (toolStep s e) := by
  obtain ⟨h1, h2⟩ := h
  cases e with
  | writeFile argsOk =>
    cases argsOk <;> simp [toolStep, GateInv] <;> exact ⟨h1, h2⟩
  | build cmdOk =>
    by_cases hc : s.code_written = true <;>
      cases cmdOk <;> simp [toolStep, GateInv, hc] <;>
        first
        | tauto
        | simp_all
  | test argsOk envOk r =>
    by_cases hb : s.build_succeeded = true <;>
      cases argsOk <;> cases envOk <;> cases r <;>
        simp [toolStep, GateInv, hb] <;> tauto
  | passive => exact ⟨h1, h2⟩

/-- `GateInv` holds in every state reachable from `reset()`. -/
theorem gateInv_runTools (evs : List MutTool) : GateInv (runTools evs) := by
  have hinit : GateInv ToolHandlerState.init := by
    unfold GateInv ToolHandlerState.init; simp
  suffices h : ∀ s, GateInv s → GateInv (evs.foldl toolStep s) from
    h ToolHandlerState.init hinit
  induction evs with
  | nil => intro s hs; exact hs
  | cons e rest ih => intro s hs; exact ih _ (gateInv_toolStep s e hs)

/-- C1: in every `ToolHandler` state reachable from the session's
`reset()`, `try_complete` promotes the capability (calls
`update_meta_json` and returns a `MutationResult` with the model's
summary) exactly when `code_written`, `build_succeeded` and `test_passed`
all hold; whenever one of the three gates is false it instead returns the
structured gate error listing the missing build / test steps.
(`try_complete` itself inspects only `build_succeeded` and `test_passed`;
`code_written` is forced by the invariant that `handle_build` refuses to
do anything before `write_file` has been called.) -/
theorem synthesis_complete_gated (evs : List MutTool) (a : CompletionArgs) :
    (try_complete (runTools evs) (some a) = .promoted a.summary ↔
      ((runTools evs).code_written = true ∧ (runTools evs).build_succeeded = true ∧
        (runTools evs).test_passed = true)) ∧
    (((runTools evs).code_written = false ∨ (runTools evs).build_succeeded = false ∨
        (runTools evs).test_passed = false) →
      try_complete (runTools evs) (some a) =
        .gateError (!(runTools evs).build_succeeded) (!(runTools evs).test_passed)) := by
  obtain ⟨h1, h2⟩ := gateInv_runTools evs
  constructor
  · cases hb : (runTools evs).build_succeeded <;>
      cases ht : (runTools evs).test_passed <;>
      simp [try_complete, hb, ht]
    exact h1 hb
  · intro hmiss
    cases hb : (runTools evs).build_succeeded <;>
      cases ht : (runTools evs).test_passed <;>
      simp [try_complete, hb, ht]
    rcases hmiss with h | h | h
    · exact absurd (h1 hb) (by simp [h])
    · exact absurd hb (by simp [h])
    · exact absurd ht (by simp [h])

/-- Witness for C1: in the freshly reset state (no `write_file`, no build,
no test) a completion attempt is rejected with the gate error naming both
missing steps. -/
theorem synthesis_complete_gated_witness :
    try_complete (runTools []) (some ⟨"sums a list", false⟩) =
      .gateError true true := by
  exact (synthesis_complete_gated [] ⟨"sums a list", false⟩).2 (Or.inl rfl)

/-- C8: `cosine_similarity` is guarded against zero norms — whenever one of
the two vectors has all-zero entries (so its accumulated squared norm is
exactly zero, which is exact in `f32` as well), the function returns 0
through the `na == 0.0 || nb == 0.0` guard instead of dividing by the zero
product of norms. -/
theorem cosine_similarity_zero_vector (a b : List ℝ)
    (h : (∀ x ∈ a, x = 0) ∨ (∀ x ∈ b, x = 0)) :
    cosine_similarity a b = 0 := by
  have hz : (((a.zip b).map (fun p => p.1 * p.1)).sum = 0) ∨
      (((a.zip b).map (fun p => p.2 * p.2)).sum = 0) := by
    rcases h with h | h
    · left
      apply List.sum_eq_zero
      intro x hx
      simp only [List.mem_map] at hx
      obtain ⟨p, hp, rfl⟩ := hx
      rw [h _ (List.of_mem_zip hp).1]
      ring
    · right
      apply List.sum_eq_zero
      intro x hx
      simp only [List.mem_map] at hx
      obtain ⟨p, hp, rfl⟩ := hx
      rw [h _ (List.of_mem_zip hp).2]
      ring
  simp only [cosine_similarity]
  rw [if_pos hz]

/-- Witness for C8: the zero vector against `[1, 2]` yields similarity 0. -/
theorem cosine_similarity_zero_vector_witness :
    cosine_similarity [0, 0] [1, 2] = 0 := by
  apply cosine_similarity_zero_vector
  left
  intro x hx
  simp only [List.mem_cons, List.not_mem_nil, or_false] at hx
  rcases hx with h | h <;> exact h

/-- C10: the registry layer treats a missing `crates/` directory as a
successful empty load, but `CapabilityStore::load` and
`CapabilityStore::reload` reject any load that produced zero capability
records with an error instead of constructing an empty store. -/
theorem empty_catalog_rejected :
    (load_capabilities CratesDir.missing = Except.ok []) ∧
    (∀ (d : CratesDir) (emb : Embedder) (store : CapabilityStore),
      load_capabilities d = Except.ok [] →
      (∃ e, CapabilityStore.load d emb = Except.error e) ∧
      (∃ e, CapabilityStore.reload store d emb = Except.error e)) := by
  refine ⟨rfl, fun d emb store h =>
    ⟨⟨"No capabilities found - add some meta.json files!", ?_⟩,
     ⟨"No capabilities found - add some meta.json files!", ?_⟩⟩⟩
  · simp [CapabilityStore.load, h]
  · simp [CapabilityStore.reload, h]

/-- Witness for C10: loading from a root with no `crates/` directory
yields the empty-catalog error. -/
theorem empty_catalog_rejected_witness :
    ∃ e, CapabilityStore.load CratesDir.missing (fun _ => Except.ok []) =
      Except.error e :=
  (empty_catalog_rejected.2 CratesDir.missing (fun _ => Except.ok [])
    ⟨[], ⟨0, []⟩⟩ empty_catalog_rejected.1).1

/-- `runTaskLoop` with `fuel` remaining iterations starting at step `i`
reads the turn script only at indices in `[i, i + fuel)`. -/
theorem runTaskLoop_congr (s1 s2 : ℕ → TurnOutcome) :
    ∀ (fuel i : ℕ), (∀ j, i ≤ j → j < i + fuel → s1 j = s2 j) →
      runTaskLoop s1 fuel i = runTaskLoop s2 fuel i := by
  intro fuel
  induction fuel with
  | zero => intro i _; rfl
  | succ n ih =>
    intro i h
    have hi : s1 i = s2 i := h i le_rfl (by omega)
    simp only [runTaskLoop, hi]
    cases s2 i with
    | chatErr e => rfl
    | toolCalls r => cases r with
      | error e => rfl
      | ok rs => exact ih (i + 1) (fun j hj1 hj2 => h j (by omega) (by omega))
    | message c => rfl

/-- If no step in `[i, i + fuel)` observes a plain message, the loop ends
in an error. -/
theorem runTaskLoop_no_message (s : ℕ → TurnOutcome) :
    ∀ (fuel i : ℕ), (∀ j, i ≤ j → j < i + fuel → ∀ c, s j ≠ TurnOutcome.message c) →
      ∃ e, runTaskLoop s fuel i = Except.error e := by
  intro fuel
  induction fuel with
  | zero =>
    intro i _
    exact ⟨"Agentic loop reached max_steps without a final answer", rfl⟩
  | succ n ih =>
    intro i h
    cases hs : s i with
    | chatErr e => exact ⟨e, by simp [runTaskLoop, hs]⟩
    | toolCalls r => cases r with
      | error e => exact ⟨e, by simp [runTaskLoop, hs]⟩
      | ok rs =>
        obtain ⟨e, he⟩ := ih (i + 1) (fun j hj1 hj2 => h j (by omega) (by omega))
        exact ⟨e, by simp [runTaskLoop, hs, he]⟩
    | message c => exact absurd hs (h i le_rfl (by omega) c)

/-- C5: `Agent::run_task` performs at most `max_steps = 12` LLM turns — its
result depends only on the first 12 per-turn observations — and when none
of those turns produces a plain message (a response whose `tool_calls`
field is absent), it returns an error rather than any answer string. -/
theorem run_task_bounded :
    (∀ s1 s2 : ℕ → TurnOutcome, (∀ i, i < agentMaxSteps → s1 i = s2 i) →
      run_task s1 = run_task s2) ∧
    (∀ s : ℕ → TurnOutcome,
      (∀ i, i < agentMaxSteps → ∀ c, s i ≠ TurnOutcome.message c) →
      ∃ e, run_task s = Except.error e) := by
  constructor
  · intro s1 s2 h
    exact runTaskLoop_congr s1 s2 agentMaxSteps 0 (fun j _ hj => h j (by omega))
  · intro s h
    exact runTaskLoop_no_message s agentMaxSteps 0 (fun j _ hj c => h j (by omega) c)

/-- Witness for C5: a model that issues tool calls on every one of the 12
turns drives `run_task` into the terminal max-steps error. -/
theorem run_task_bounded_witness :
    ∃ e, run_task (fun _ => TurnOutcome.toolCalls (Except.ok [])) =
      Except.error e :=
  run_task_bounded.2 (fun _ => TurnOutcome.toolCalls (Except.ok []))
    (fun i _ c => by simp)

/-- C2: the orchestrator's per-capability failure tracking in
`handle_run_capability` — a failed run increments the id's counter by one
(an absent entry counts as zero); when the incremented counter reaches the
threshold 2, `mark_deprecated(id, reason)` is invoked on the store during
that same tool-call handling; and a successful run removes the id's entry,
so the counter for that id reads as zero afterwards. -/
theorem run_capability_failure_tracking
    (caps : List CapabilityRecord) (counts : String → Option ℕ)
    (runner : CapabilityRecord → String → RunOutcome) (cid input : String)
    (cap : CapabilityRecord)
    (hfind : caps.find? (fun c => c.id == cid) = some cap) :
    (∀ e, runner cap input = RunOutcome.fail e →
      (handle_run_capability caps counts runner (.ok ⟨some cid, some input⟩)).counts cid
          = some ((counts cid).getD 0 + 1) ∧
      (2 ≤ (counts cid).getD 0 + 1 →
        (handle_run_capability caps counts runner (.ok ⟨some cid, some input⟩)).deprecatedCalled
          = some (cid, s!"Failed {(counts cid).getD 0 + 1} times. Last error: {e}")) ∧
      ((counts cid).getD 0 + 1 < 2 →
        (handle_run_capability caps counts runner (.ok ⟨some cid, some input⟩)).deprecatedCalled
          = none)) ∧
    (∀ out, runner cap input = RunOutcome.ok out →
      (handle_run_capability caps counts runner (.ok ⟨some cid, some input⟩)).counts cid
        = none ∧
      ((handle_run_capability caps counts runner (.ok ⟨some cid, some input⟩)).counts cid).getD 0
        = 0) := by
  constructor
  · intro e he
    simp only [handle_run_capability, hfind, he]
    refine ⟨by simp, fun h2 => ?_, fun h2 => ?_⟩
    · simp [if_pos h2]
      all_goals omega
    · simp [if_neg (by omega : ¬(2 ≤ (counts cid).getD 0 + 1))]
      all_goals omega
  · intro out hout
    simp only [handle_run_capability, hfind, hout]
    simp

/-- Witness for C2: with one prior failure on record, a second failure
bumps the counter to 2 and triggers deprecation with the formatted
reason. -/
theorem run_capability_failure_tracking_witness :
    (handle_run_capability
        [⟨"cap_b", "demo", none, some "bin.wasm", CapabilityStatus.Active, none⟩]
        (fun _ => some 1) (fun _ _ => RunOutcome.fail "boom")
        (.ok ⟨some "cap_b", some "{}"⟩)).counts "cap_b" = some 2 ∧
    (handle_run_capability
        [⟨"cap_b", "demo", none, some "bin.wasm", CapabilityStatus.Active, none⟩]
        (fun _ => some 1) (fun _ _ => RunOutcome.fail "boom")
        (.ok ⟨some "cap_b", some "{}"⟩)).deprecatedCalled
      = some ("cap_b", "Failed 2 times. Last error: boom") := by
  have h := (run_capability_failure_tracking
    [⟨"cap_b", "demo", none, some "bin.wasm", CapabilityStatus.Active, none⟩]
    (fun _ => some 1) (fun _ _ => RunOutcome.fail "boom") "cap_b" "{}"
    ⟨"cap_b", "demo", none, some "bin.wasm", CapabilityStatus.Active, none⟩
    rfl).1 "boom" rfl
  exact ⟨h.1, h.2.1 (by decide)⟩

/-- C9: `handle_run_capability` looks the capability up by id alone
(`CapabilityStore::get_capability` does not inspect `status`), so whenever
a record with the requested id is in the store — whatever its lifecycle
status, including `Deprecated` and `Legacy` — that record is handed to the
runner and executed. -/
theorem run_capability_ignores_status
    (caps : List CapabilityRecord) (counts : String → Option ℕ)
    (runner : CapabilityRecord → String → RunOutcome) (cid input : String)
    (cap : CapabilityRecord)
    (hfind : CapabilityStore.get_capability ⟨caps, ⟨0, []⟩⟩ cid = some cap) :
    (handle_run_capability caps counts runner (.ok ⟨some cid, some input⟩)).executed
      = some cap := by
  have hf : caps.find? (fun c => c.id == cid) = some cap := hfind
  cases hr : runner cap input <;>
    simp [handle_run_capability, hf, hr]

/-- Witness for C9: a capability whose status is `Deprecated` is still
looked up and executed when addressed by id. -/
theorem run_capability_ignores_status_witness :
    (handle_run_capability
        [⟨"dead_cap", "demo", none, some "bin.wasm", CapabilityStatus.Deprecated, none⟩]
        (fun _ => none) (fun _ _ => RunOutcome.ok "{}")
        (.ok ⟨some "dead_cap", some "{}"⟩)).executed
      = some ⟨"dead_cap", "demo", none, some "bin.wasm", CapabilityStatus.Deprecated, none⟩ :=
  run_capability_ignores_status
    [⟨"dead_cap", "demo", none, some "bin.wasm", CapabilityStatus.Deprecated, none⟩]
    (fun _ => none) (fun _ _ => RunOutcome.ok "{}") "dead_cap" "{}"
    ⟨"dead_cap", "demo", none, some "bin.wasm", CapabilityStatus.Deprecated, none⟩
    rfl

/-- C7 counterexample: an arguments object with a valid `task_description`
and no `parent_capability_id` does not proceed to synthesis — the handler
rejects it with the missing-argument error for `parent_capability_id`. -/
theorem mutate_parent_optional_counterexample :
    handle_mutate_capability
        (Except.ok ⟨some "multiply two integers", none⟩)
      = MutateDispatch.missingParentCapabilityId := rfl

/-- C7 (amended): `parent_capability_id` is a required parameter of the
`mutate_capability` tool — the handler extracts it with a failing
`context(...)?`, so any arguments object without it yields the
missing-argument error, the tool schema lists it under `required`, and
synthesis is reached exactly when both `task_description` and
`parent_capability_id` are present. -/
theorem mutate_parent_required :
    (∀ td : String,
      handle_mutate_capability (Except.ok ⟨some td, none⟩)
        = MutateDispatch.missingParentCapabilityId) ∧
    (∀ td pid : String,
      handle_mutate_capability (Except.ok ⟨some td, some pid⟩)
        = MutateDispatch.synthesize td pid) ∧
    "parent_capability_id" ∈ mutateToolRequired :=
  ⟨fun _ => rfl, fun _ _ => rfl, by simp [mutateToolRequired]⟩

/-- A concrete Active capability used to exercise `mark_deprecated`. -/
def capADemo : CapabilityRecord :=
  ⟨"cap_a", "demo capability", none, some "bin.wasm", CapabilityStatus.Active, none⟩

/-- A catalog state whose in-memory list contains `capADemo` but whose
on-disk `meta.json` for it is missing. -/
def stateNoMeta : CatalogState :=
  ⟨[capADemo], fun _ => MetaFileState.absent, fun _ => false,
   fun _ => MetaFileState.absent⟩

/-- A catalog state whose `meta.json` for `capADemo` is present but whose
write fails, leaving the file truncated (hence unparsable). -/
def stateWriteFail : CatalogState :=
  ⟨[capADemo], fun _ => MetaFileState.doc ⟨some "active", none⟩,
   fun _ => true, fun _ => MetaFileState.parseErr⟩

/-- C6 counterexample: on `stateNoMeta`, `mark_deprecated` returns an error
(the `meta.json` is missing), yet the in-memory record — Active before the
call — has already been switched to Deprecated: the error return does not
leave the catalog state unchanged, so in-memory record and file are not
updated in one transaction. -/
theorem mark_deprecated_error_mutates_memory :
    capADemo.status = CapabilityStatus.Active ∧
    (∃ e, (mark_deprecated stateNoMeta "cap_a" "broken").2 = Except.error e) ∧
    ((mark_deprecated stateNoMeta "cap_a" "broken").1.caps.map
        CapabilityRecord.status = [CapabilityStatus.Deprecated]) :=
  ⟨rfl, ⟨_, rfl⟩, rfl⟩

/-- C6 (amended): when `mark_deprecated` returns an error, the in-memory
catalog is unchanged only when the id was not found in memory; on every
other error path the first in-memory record with that id has already been
set to Deprecated, because the source mutates the record before touching
disk. The on-disk `meta.json` is untouched on the error paths that fail
before the write (file missing, unreadable, unparsable); when the write
itself fails, the file is left in whatever state the failed plain
`fs::write` produced — possibly truncated or partially written — while
every other capability's file is untouched. Neither half of the spec's
transactionality sentence holds of the code. -/
theorem mark_deprecated_error_effects
    (st : CatalogState) (cid reason e : String)
    (herr : (mark_deprecated st cid reason).2 = Except.error e) :
    (st.caps.find? (fun c => c.id == cid) = none →
      (mark_deprecated st cid reason).1 = st) ∧
    (∀ c, st.caps.find? (fun c => c.id == cid) = some c →
      (mark_deprecated st cid reason).1.caps = deprecateFirst cid st.caps) ∧
    (∀ c, st.caps.find? (fun c => c.id == cid) = some c →
      (st.disk cid = MetaFileState.absent ∨ st.disk cid = MetaFileState.readErr ∨
        st.disk cid = MetaFileState.parseErr) →
      (mark_deprecated st cid reason).1.disk = st.disk) ∧
    (∀ c d, st.caps.find? (fun c => c.id == cid) = some c →
      st.disk cid = MetaFileState.doc d → st.writeFails cid = true →
      (mark_deprecated st cid reason).1.disk cid = st.failedWriteResult cid ∧
      ∀ q, q ≠ cid → (mark_deprecated st cid reason).1.disk q = st.disk q) := by
  cases hf : st.caps.find? (fun c => c.id == cid) with
  | none =>
    refine ⟨fun _ => ?_, ?_, ?_, ?_⟩
    · simp [mark_deprecated, hf]
    · intro c hc
      cases hc
    · intro c hc
      cases hc
    · intro c d hc
      cases hc
  | some c0 =>
    have hcaps : (mark_deprecated st cid reason).1.caps =
        deprecateFirst cid st.caps := by
      cases hd : st.disk cid with
      | absent => simp [mark_deprecated, hf, hd]
      | readErr => simp [mark_deprecated, hf, hd]
      | parseErr => simp [mark_deprecated, hf, hd]
      | doc d =>
        by_cases hw : st.writeFails cid = true
        · simp [mark_deprecated, hf, hd, hw]
        · exfalso
          rw [show (mark_deprecated st cid reason).2 = Except.ok () from by
            simp [mark_deprecated, hf, hd, hw]] at herr
          cases herr
    refine ⟨?_, fun c _ => hcaps, ?_, ?_⟩
    · intro hn
      cases hn
    · intro c _ hdisk
      rcases hdisk with hd | hd | hd <;> simp [mark_deprecated, hf, hd]
    · intro c d _ hd hw
      constructor
      · simp [mark_deprecated, hf, hd, hw]
      · intro q hq
        have hqf : (q == cid) = false := beq_eq_false_iff_ne.mpr hq
        simp [mark_deprecated, hf, hd, hw, hqf]
        exact fun hcontra => absurd hcontra hq

/-- Witness for the amended C6: on the missing-`meta.json` state the
error leaves the disk untouched while the in-memory record is the
deprecated rewrite of the original list, and on the failing-write state
the file for the target id ends up in the failed-write state. -/
theorem mark_deprecated_error_effects_witness :
    (mark_deprecated stateNoMeta "cap_a" "broken").1.disk = stateNoMeta.disk ∧
    (mark_deprecated stateNoMeta "cap_a" "broken").1.caps =
      deprecateFirst "cap_a" stateNoMeta.caps ∧
    (mark_deprecated stateWriteFail "cap_a" "broken").1.disk "cap_a" =
      stateWriteFail.failedWriteResult "cap_a" := by
  have h1 := mark_deprecated_error_effects stateNoMeta "cap_a" "broken"
    "meta.json not found for capability cap_a" rfl
  have h2 := mark_deprecated_error_effects stateWriteFail "cap_a" "broken"
    "failed to write meta.json" rfl
  exact ⟨h1.2.2.1 capADemo rfl (Or.inl rfl), h1.2.1 capADemo rfl,
    (h2.2.2.2 capADemo ⟨some "active", none⟩ rfl rfl rfl).1⟩

/-- A concrete host environment for exercising `file_read`: the single
path byte `102` decodes (per real UTF-8) to `"f"`, reading `"f"` yields
two content bytes, and every other path is missing. -/
def fileReadDemoEnv : HostEnv where
  utf8Decode := fun bs => if bs = [102] then some "f" else none
  fsRead := fun s => if s = "f" then FsReadResult.ok [104, 105] else FsReadResult.notFound

/-- C3 counterexample: the guest invocation `path_ptr = 0xFFFFFFFF` (i32
−1), `path_len = 1` on a 4-byte memory has `path_ptr + path_len` exceeding
the memory size, so the claim demands −2; the source instead sign-extends
the pointer to `2^64 − 1`, the wrapping addition makes `end = 0` pass the
`end > data.len()` bound check, and `data[2^64−1..0]` panics — the host
function panics rather than returning −2. -/
theorem file_read_wrap_counterexample :
    file_read fileReadDemoEnv (some [102, 0, 0, 0]) 4294967295 1 0 =
      HostCallOutcome.panic ∧
    file_read fileReadDemoEnv (some [102, 0, 0, 0]) 4294967295 1 0 ≠
      HostCallOutcome.ret (-2) (some [102, 0, 0, 0]) := by
  constructor
  · decide
  · decide

/-- C3 (amended): the error-code contract of the `file_read` host
function, with the pointer arithmetic the source actually performs: the
guest's i32 arguments are sign-extended to `usize` and the end offsets
computed with wrapping addition. With no exported linear memory the result
is −1; when the computed path end exceeds the memory size, −2; when the
path end wrapped below the path start (reachable only through wrap-around,
e.g. `path_ptr = -1`) the call panics instead of returning; invalid UTF-8
path bytes give −3; a missing file −4; permission denied −5; any other
read failure −6; a computed content end beyond the memory −7; a wrapped
content end panics likewise; otherwise the content is written at the
(sign-extended) `result_ptr` and its length, cast to i32, is returned —
non-negative whenever the content is shorter than `2^31` bytes. Memory is
untouched on every error path. -/
theorem file_read_error_codes (env : HostEnv) (data : List ℕ)
    (p l r : ℕ) :
    (file_read env none p l r = .ret (-1) none) ∧
    (wrap64 (signExtend32 p + signExtend32 l) > data.length →
      file_read env (some data) p l r = .ret (-2) (some data)) ∧
    (wrap64 (signExtend32 p + signExtend32 l) ≤ data.length →
      signExtend32 p > wrap64 (signExtend32 p + signExtend32 l) →
      file_read env (some data) p l r = .panic) ∧
    (wrap64 (signExtend32 p + signExtend32 l) ≤ data.length →
      signExtend32 p ≤ wrap64 (signExtend32 p + signExtend32 l) →
      env.utf8Decode ((data.drop (signExtend32 p)).take
        (wrap64 (signExtend32 p + signExtend32 l) - signExtend32 p)) = none →
      file_read env (some data) p l r = .ret (-3) (some data)) ∧
    (∀ path, wrap64 (signExtend32 p + signExtend32 l) ≤ data.length →
      signExtend32 p ≤ wrap64 (signExtend32 p + signExtend32 l) →
      env.utf8Decode ((data.drop (signExtend32 p)).take
        (wrap64 (signExtend32 p + signExtend32 l) - signExtend32 p)) = some path →
      env.fsRead path = FsReadResult.notFound →
      file_read env (some data) p l r = .ret (-4) (some data)) ∧
    (∀ path, wrap64 (signExtend32 p + signExtend32 l) ≤ data.length →
      signExtend32 p ≤ wrap64 (signExtend32 p + signExtend32 l) →
      env.utf8Decode ((data.drop (signExtend32 p)).take
        (wrap64 (signExtend32 p + signExtend32 l) - signExtend32 p)) = some path →
      env.fsRead path = FsReadResult.permissionDenied →
      file_read env (some data) p l r = .ret (-5) (some data)) ∧
    (∀ path, wrap64 (signExtend32 p + signExtend32 l) ≤ data.length →
      signExtend32 p ≤ wrap64 (signExtend32 p + signExtend32 l) →
      env.utf8Decode ((data.drop (signExtend32 p)).take
        (wrap64 (signExtend32 p + signExtend32 l) - signExtend32 p)) = some path →
      env.fsRead path = FsReadResult.otherErr →
      file_read env (some data) p l r = .ret (-6) (some data)) ∧
    (∀ path content, wrap64 (signExtend32 p + signExtend32 l) ≤ data.length →
      signExtend32 p ≤ wrap64 (signExtend32 p + signExtend32 l) →
      env.utf8Decode ((data.drop (signExtend32 p)).take
        (wrap64 (signExtend32 p + signExtend32 l) - signExtend32 p)) = some path →
      env.fsRead path = FsReadResult.ok content →
      wrap64 (signExtend32 r + content.length) > data.length →
      file_read env (some data) p l r = .ret (-7) (some data)) ∧
    (∀ path content, wrap64 (signExtend32 p + signExtend32 l) ≤ data.length →
      signExtend32 p ≤ wrap64 (signExtend32 p + signExtend32 l) →
      env.utf8Decode ((data.drop (signExtend32 p)).take
        (wrap64 (signExtend32 p + signExtend32 l) - signExtend32 p)) = some path →
      env.fsRead path = FsReadResult.ok content →
      wrap64 (signExtend32 r + content.length) ≤ data.length →
      signExtend32 r > wrap64 (signExtend32 r + content.length) →
      file_read env (some data) p l r = .panic) ∧
    (∀ path content, wrap64 (signExtend32 p + signExtend32 l) ≤ data.length →
      signExtend32 p ≤ wrap64 (signExtend32 p + signExtend32 l) →
      env.utf8Decode ((data.drop (signExtend32 p)).take
        (wrap64 (signExtend32 p + signExtend32 l) - signExtend32 p)) = some path →
      env.fsRead path = FsReadResult.ok content →
      wrap64 (signExtend32 r + content.length) ≤ data.length →
      signExtend32 r ≤ wrap64 (signExtend32 r + content.length) →
      file_read env (some data) p l r =
        .ret (toI32 content.length) (some (writeBytes data (signExtend32 r) content)) ∧
      (content.length < 2 ^ 31 → 0 ≤ toI32 content.length)) := by
  refine ⟨rfl, ?_, ?_, ?_, ?_, ?_, ?_, ?_, ?_, ?_⟩
  · intro hb
    simp [file_read, hb]
  · intro hb hwrap
    simp [file_read, Nat.not_lt.mpr hb, hwrap]
  · intro hb hwrap hd
    simp [file_read, Nat.not_lt.mpr hb, Nat.not_lt.mpr hwrap, hd]
  · intro path hb hwrap hd hfs
    simp [file_read, Nat.not_lt.mpr hb, Nat.not_lt.mpr hwrap, hd, hfs]
  · intro path hb hwrap hd hfs
    simp [file_read, Nat.not_lt.mpr hb, Nat.not_lt.mpr hwrap, hd, hfs]
  · intro path hb hwrap hd hfs
    simp [file_read, Nat.not_lt.mpr hb, Nat.not_lt.mpr hwrap, hd, hfs]
  · intro path content hb hwrap hd hfs hr
    simp [file_read, Nat.not_lt.mpr hb, Nat.not_lt.mpr hwrap, hd, hfs, hr]
  · intro path content hb hwrap hd hfs hr hrwrap
    simp [file_read, Nat.not_lt.mpr hb, Nat.not_lt.mpr hwrap, hd, hfs,
      Nat.not_lt.mpr hr, hrwrap]
  · intro path content hb hwrap hd hfs hr hrwrap
    refine ⟨?_, ?_⟩
    · simp [file_read, Nat.not_lt.mpr hb, Nat.not_lt.mpr hwrap, hd, hfs,
        Nat.not_lt.mpr hr, Nat.not_lt.mpr hrwrap]
    · intro hlen
      unfold toI32
      rw [Nat.mod_eq_of_lt (lt_trans hlen (by norm_num))]
      rw [if_pos hlen]
      exact Int.natCast_nonneg _

/-- Witness for the amended C3: on a four-byte memory whose first byte
spells the path `"f"`, the success path writes the two content bytes at
offset 1 and returns their length 2; and on the same memory a path range
whose (non-wrapping) end exceeds the memory yields −2. -/
theorem file_read_error_codes_witness :
    file_read fileReadDemoEnv (some [102, 0, 0, 0]) 0 1 1 =
      HostCallOutcome.ret 2 (some [102, 104, 105, 0]) ∧
    file_read fileReadDemoEnv (some [102, 0, 0, 0]) 3 2 0 =
      HostCallOutcome.ret (-2) (some [102, 0, 0, 0]) := by
  have h := file_read_error_codes fileReadDemoEnv [102, 0, 0, 0] 0 1 1
  have h2 := file_read_error_codes fileReadDemoEnv [102, 0, 0, 0] 3 2 0
  refine ⟨?_, h2.2.1 (by decide)⟩
  have hs := (h.2.2.2.2.2.2.2.2.2 "f" [104, 105] (by decide) (by decide)
    (by decide) (by decide) (by decide) (by decide)).1
  rw [hs]
  rfl

/-- C4: every id in the scored list returned by
`CapabilityStore::capabilities_summary_for_task` resolves — through the
same id lookup `get_capability` performs — to a capability whose status is
Active; Deprecated and Legacy capabilities never appear in the router's
top-k surface. -/
theorem router_surfaces_only_active
    (store : CapabilityStore) (task : String) (embedder : Embedder) (k : ℕ)
    (text : String) (lst : List (String × ℝ)) (id : String) (score : ℝ)
    (hok : store.capabilities_summary_for_task task embedder k =
      Except.ok (text, lst))
    (hmem : (id, score) ∈ lst) :
    ∃ c, store.get_capability id = some c ∧
      c.status = CapabilityStatus.Active := by
  unfold CapabilityStore.capabilities_summary_for_task at hok
  cases hn : store.index.nearest_for_task task embedder k with
  | error e => rw [hn] at hok; cases hok
  | ok nearest =>
    rw [hn] at hok
    simp only [Except.ok.injEq, Prod.mk.injEq] at hok
    obtain ⟨-, hlst⟩ := hok
    rw [← hlst] at hmem
    have hp := (List.mem_filter.mp hmem).2
    unfold activeFilterPred at hp
    cases hfind : store.capabilities.find? (fun c => c.id == id) with
    | none => rw [hfind] at hp; cases hp
    | some c =>
      rw [hfind] at hp
      refine ⟨c, hfind, ?_⟩
      simpa [CapabilityRecord.is_active] using hp

/-- A one-capability store for exercising the router: one Active
capability with a cached zero embedding, indexed under dimension 1. -/
def demoStore : CapabilityStore :=
  ⟨[⟨"cap_a", "demo capability", some [0], some "bin.wasm",
      CapabilityStatus.Active, none⟩],
   ⟨1, [("cap_a", [0])]⟩⟩

/-- An embedder that maps every string to the 1-dimensional zero vector. -/
def zeroEmbedder : Embedder := fun _ => Except.ok [0]

/-- Witness for C4: on `demoStore` the router returns `cap_a` with score
0, and the theorem resolves it to the Active record. -/
theorem router_surfaces_only_active_witness :
    ∃ c, demoStore.get_capability "cap_a" = some c ∧
      c.status = CapabilityStatus.Active := by
  have hcos : cosine_similarity [0] [(0 : ℝ)] = 0 := by
    simp [cosine_similarity]
  have hok : demoStore.capabilities_summary_for_task "some task" zeroEmbedder 1 =
      Except.ok
        (String.intercalate "\n"
          ["You have access to the following capabilities:",
           s!"- id: cap_a\n  summary: demo capability"],
         [("cap_a", (0 : ℝ))]) := by
    simp only [CapabilityStore.capabilities_summary_for_task,
      CapabilityIndex.nearest_for_task, zeroEmbedder, demoStore,
      CapabilityIndex.nearest_from_embedding, List.map, hcos]
    norm_num
    simp [activeFilterPred, CapabilityRecord.is_active]
    rfl
  exact router_surfaces_only_active demoStore "some task" zeroEmbedder 1 _
    [("cap_a", (0 : ℝ))] "cap_a" 0 hok (by simp)
